import Mathlib

/-!
Voice call tracker: join / leave bookkeeping and duration formatting

A shallow embedding of `voice-call-tracker-bot.js`.

Modelling conventions.

* JavaScript numbers that the program handles are millisecond timestamps
  (`Date.now()`) and their differences; they are modelled as `Int`.  A value
  that may be `undefined` is an `Option`.  `Math.floor (x / k)` for a positive
  constant `k` is `Int` division `/` (which rounds down for a positive divisor),
  the JavaScript remainder `%` (sign of the dividend) is `Int.tmod`, and a
  template-literal substitution of an integer is `toString`.
* Discord identifiers (`member.id`, `channelId`) are snowflakes, i.e. the decimal
  string of an unsigned integer; they are modelled as `Nat` and rendered with
  `toString`.  Such a string is never empty, so a channel id is falsy exactly when
  it is `null`, which is `none` here.
* The built-in `Map` is modelled as an insertion-ordered list of key/value pairs.
-/

namespace VoiceCallTracker

/-! ## `formatDuration` (source lines 118-129) -/

/-- The function `formatDuration(ms)`; `none` is a call with `undefined`. -/
def formatDuration (ms : Option Int) : String :=
  match ms with
  | none => "less than 1s"
  | some ms =>
    if ms = 0 ∨ ms < 1000 then "less than 1s"
    else
      let totalSeconds := ms / 1000
      let hours := totalSeconds / 3600
      let minutes := (Int.tmod totalSeconds 3600) / 60
      let seconds := Int.tmod totalSeconds 60
      let parts : List String := []
      let parts := if hours ≠ 0 then parts ++ [toString hours ++ "h"] else parts
      let parts := if minutes ≠ 0 then parts ++ [toString minutes ++ "m"] else parts
      let parts := if seconds ≠ 0 ∧ hours = 0 then parts ++ [toString seconds ++ "s"] else parts
      String.intercalate " " parts

/-! ## The join-time registry `joinTimes` (source line 44) -/

/-- A Discord snowflake identifier. -/
abbrev Snowflake := Nat

/-- The `Map` from user id to join timestamp: its entries in insertion order. -/
abbrev JoinTimes := List (Snowflake × Int)

/-- The method `Map.prototype.get(k)`: the value stored under `k`, `none` for `undefined`. -/
def JoinTimes.get : JoinTimes → Snowflake → Option Int
  | [], _ => none
  | (k', v) :: rest, k => if k' = k then some v else JoinTimes.get rest k

/-- The method `Map.prototype.set(k, v)`: the value of an existing key is replaced where it
stands, a new key is appended. -/
def JoinTimes.set : JoinTimes → Snowflake → Int → JoinTimes
  | [], k, v => [(k, v)]
  | (k', v') :: rest, k, v =>
    if k' = k then (k, v) :: rest else (k', v') :: JoinTimes.set rest k v

/-- The method `Map.prototype.delete(k)`: no entry with key `k` remains. -/
def JoinTimes.delete (m : JoinTimes) (k : Snowflake) : JoinTimes :=
  m.filter (fun e => e.1 ≠ k)

/-- The number of entries the registry holds for key `k`. -/
def JoinTimes.entries (m : JoinTimes) (k : Snowflake) : Nat :=
  (m.filter (fun e => e.1 = k)).length

/-! ## Events, messages and the handler's effects -/

/-- The fields of a `GuildMember` the handler reads. -/
structure Member where
  id : Snowflake
  displayName : String
  /-- The result of `member.displayAvatarURL()`. -/
  avatarURL : String
  /-- The flag `member.user.bot`. -/
  bot : Bool
deriving DecidableEq, Repr

/-- The fields of a `VoiceState` the handler reads; `none` is `null`. -/
structure VoiceState where
  member : Option Member
  channelId : Option Snowflake
deriving DecidableEq, Repr

/-- A resolved channel: the result of its `isTextBased()`. -/
structure Channel where
  isTextBased : Bool
deriving DecidableEq, Repr

/-- One `voiceStateUpdate` event together with what the environment answers while
it is handled: `logChannel` is the value of
`await client.channels.fetch(LOG_CHANNEL_ID).catch(() => null)` (`none` when the
fetch fails or yields nothing) and `now` is the value `Date.now()` returns. -/
structure Event where
  oldState : VoiceState
  newState : VoiceState
  logChannel : Option Channel
  now : Int
deriving DecidableEq, Repr

/-- What an `EmbedBuilder` has been given. -/
structure Embed where
  authorName : String
  authorIconURL : String
  description : String
  color : Nat
deriving DecidableEq, Repr

/-- The value of `joinMessage` / `leaveMessage`: an embed or a plain string. -/
inductive Message where
  | embed (e : Embed)
  | text (s : String)
deriving DecidableEq, Repr

/-- The argument of `logChannel.send`; `none` is `undefined`. -/
structure Payload where
  embeds : Option (List Message)
  content : Option Message
deriving DecidableEq, Repr

/-- The observable steps of one handler invocation, in program order. -/
inductive Effect where
  /-- The handler suspends in `await client.channels.fetch(...)` (line 55). -/
  | awaitFetch
  /-- A call `joinTimes.set(k, v)` (line 61). -/
  | mapSet (k : Snowflake) (v : Int)
  /-- A call `joinTimes.delete(k)` (line 89). -/
  | mapDelete (k : Snowflake)
  /-- A call `logChannel.send(p)` (lines 80, 111). -/
  | send (p : Payload)
deriving DecidableEq, Repr

/-- The registry and the effects performed so far. -/
structure Run where
  joinTimes : JoinTimes
  log : List Effect
deriving DecidableEq, Repr

def Run.awaitFetch (r : Run) : Run :=
  { r with log := r.log ++ [Effect.awaitFetch] }

def Run.mapSet (r : Run) (k : Snowflake) (v : Int) : Run :=
  { joinTimes := r.joinTimes.set k v, log := r.log ++ [Effect.mapSet k v] }

def Run.mapDelete (r : Run) (k : Snowflake) : Run :=
  { joinTimes := r.joinTimes.delete k, log := r.log ++ [Effect.mapDelete k] }

def Run.send (r : Run) (p : Payload) : Run :=
  { r with log := r.log ++ [Effect.send p] }

/-- The payloads handed to `logChannel.send`, in order. -/
def Run.sent (r : Run) : List Payload :=
  r.log.filterMap (fun e => match e with
    | Effect.send p => some p
    | _ => none)

/-- Template-literal substitution of a channel id. -/
def showChannelId : Option Snowflake → String
  | none => "null"
  | some c => toString c

/-- The expression `joinMessage` of lines 63-78. -/
def joinMessage (LOG_EMBEDS : String) (member : Member) (channelId : Option Snowflake)
    (joinTimestamp : Int) : Message :=
  if LOG_EMBEDS = "true" then
    Message.embed
      { authorName := member.displayName ++ " joined a voice channel"
        authorIconURL := member.avatarURL
        description :=
          "📥 **Channel:** <#" ++ showChannelId channelId ++ ">\n\n" ++
          "⏰ Joined: <t:" ++ toString (joinTimestamp / 1000) ++ ":t> " ++
          "(<t:" ++ toString (joinTimestamp / 1000) ++ ":R>)"
        color := 0x57f287 }
  else
    Message.text
      ("✅ " ++ member.displayName ++ " joined <#" ++ showChannelId channelId ++
        "> at <t:" ++ toString (joinTimestamp / 1000) ++ ":t>")

/-- The expression `durationMs` of line 91: `joinTimestamp` is tested for
truthiness, so `undefined` and the number `0` both take the else branch. -/
def durationMs (joinTimestamp : Option Int) (leaveTimestamp : Int) : Int :=
  match joinTimestamp with
  | none => 0
  | some t => if t ≠ 0 then leaveTimestamp - t else 0

/-- The expression `leaveMessage` of lines 94-109. -/
def leaveMessage (LOG_EMBEDS : String) (member : Member) (leaveTimestamp : Int)
    (durationString : String) : Message :=
  if LOG_EMBEDS = "true" then
    Message.embed
      { authorName := member.displayName ++ " left voice"
        authorIconURL := member.avatarURL
        description :=
          "📤 **Duration:** " ++ durationString ++ "\n\n" ++
          "⏰ Left: <t:" ++ toString (leaveTimestamp / 1000) ++ ":t> " ++
          "(<t:" ++ toString (leaveTimestamp / 1000) ++ ":R>)"
        color := 0xed4245 }
  else
    Message.text
      ("❌ " ++ member.displayName ++ " left voice at <t:" ++
        toString (leaveTimestamp / 1000) ++ ":t> | 📊 Duration: " ++ durationString)

/-- The object literal passed to `logChannel.send` (lines 80-83, 111-114). -/
def payload (LOG_EMBEDS : String) (message : Message) : Payload :=
  { embeds := if LOG_EMBEDS = "true" then some [message] else none
    content := if LOG_EMBEDS ≠ "true" then some message else none }

/-- The member the handler works with: `newState.member || oldState.member`. -/
def eventMember (e : Event) : Option Member :=
  match e.newState.member with
  | some m => some m
  | none => e.oldState.member

/-- The test of line 59: `!oldState.channelId && newState.channelId`. -/
def isJoin (e : Event) : Bool :=
  e.oldState.channelId.isNone && e.newState.channelId.isSome

/-- The test of line 86: `oldState.channelId && !newState.channelId`. -/
def isLeave (e : Event) : Bool :=
  e.oldState.channelId.isSome && e.newState.channelId.isNone

/-- The `voiceStateUpdate` handler (lines 50-116), run to completion on one
event from the registry `joinTimes`. -/
def voiceStateUpdate (LOG_EMBEDS : String) (joinTimes : JoinTimes) (e : Event) : Run :=
  let r : Run := { joinTimes := joinTimes, log := [] }
  match eventMember e with
  | none => r
  | some member =>
    if member.bot then r
    else
      let r := r.awaitFetch
      match e.logChannel with
      | none => r
      | some logChannel =>
        if !logChannel.isTextBased then r
        else if isJoin e then
          let joinTimestamp := e.now
          let r := r.mapSet member.id joinTimestamp
          let msg := joinMessage LOG_EMBEDS member e.newState.channelId joinTimestamp
          r.send (payload LOG_EMBEDS msg)
        else if isLeave e then
          let leaveTimestamp := e.now
          let joinTimestamp := r.joinTimes.get member.id
          let r := r.mapDelete member.id
          let durationString := formatDuration (some (durationMs joinTimestamp leaveTimestamp))
          let msg := leaveMessage LOG_EMBEDS member leaveTimestamp durationString
          r.send (payload LOG_EMBEDS msg)
        else r

/-- The handler run on a sequence of events, one invocation after the other. -/
def processAll (LOG_EMBEDS : String) (joinTimes : JoinTimes) (es : List Event) : JoinTimes :=
  es.foldl (fun jt e => (voiceStateUpdate LOG_EMBEDS jt e).joinTimes) joinTimes

/-- The precondition checks of lines 52-56 let the event through: a member is
resolved, it is not a bot, and the log channel is resolved and text based. -/
def handled (e : Event) : Bool :=
  (match eventMember e with
    | some m => !m.bot
    | none => false) &&
  (match e.logChannel with
    | some c => c.isTextBased
    | none => false)

/-- The event is one of participant `p` and its channel ids make it a join or a
leave (tests of lines 59 and 86), whatever the precondition checks say. -/
def classified (p : Snowflake) (e : Event) : Bool :=
  (match eventMember e with
    | some m => m.id == p
    | none => false) &&
  (isJoin e || isLeave e)

/-- Whether the last event of a list that satisfies `sel` exists and is a join. -/
def lastIsJoin (sel : Event → Bool) (es : List Event) : Bool :=
  match (es.filter sel).getLast? with
  | some e => isJoin e
  | none => false

/-! ## What a notification carries -/

/-- The texts of a message: an embed's author name and description, or the plain
string. -/
def Message.texts : Message → List String
  | Message.embed e => [e.authorName, e.description]
  | Message.text s => [s]

/-- The texts of everything a payload holds. -/
def Payload.texts (p : Payload) : List String :=
  (match p.embeds with
    | some ms => ms.foldr (fun m acc => m.texts ++ acc) []
    | none => []) ++
  (match p.content with
    | some m => m.texts
    | none => [])

/-- The payload carries the token `tok`: it occurs in one of the payload's texts. -/
def Payload.carries (p : Payload) (tok : String) : Prop :=
  ∃ s ∈ p.texts, tok.data <:+: s.data

instance (p : Payload) (tok : String) : Decidable (p.carries tok) := by
  unfold Payload.carries
  infer_instance

/-! ## Suspension points and registry mutations -/

/-- The effect is a registry mutation (`set` or `delete`). -/
def Effect.isMutation : Effect → Bool
  | Effect.mapSet _ _ => true
  | Effect.mapDelete _ => true
  | _ => false

/-- The effect is a suspension point of the handler (an `await`). -/
def Effect.isAwait : Effect → Bool
  | Effect.awaitFetch => true
  | _ => false

/-- No registry mutation of the log comes after a suspension point. -/
def mutatesBeforeSuspending : List Effect → Bool
  | [] => true
  | x :: rest =>
    if x.isAwait then !(rest.any Effect.isMutation) else mutatesBeforeSuspending rest

/-! ## Sample data -/

def alice : Member := { id := 7, displayName := "Alice", avatarURL := "a.png", bot := false }

def robo : Member := { id := 9, displayName := "Robo", avatarURL := "r.png", bot := true }

/-- An event of member `m` going from channel `o` to channel `n`. -/
def mkEvent (m : Member) (o n : Option Snowflake) (lc : Option Channel) (t : Int) : Event :=
  { oldState := { member := some m, channelId := o }
    newState := { member := some m, channelId := n }
    logChannel := lc
    now := t }

def textChannel : Channel := { isTextBased := true }

/-! ## Arithmetic of the decomposition -/

theorem tmod_div_sixty (S : Int) (hS : 0 ≤ S) : Int.tmod S 3600 / 60 = S / 60 % 60 := by
  rw [Int.tmod_eq_emod hS (by decide)]
  omega

theorem tmod_sixty (S : Int) (hS : 0 ≤ S) : Int.tmod S 60 = S % 60 :=
  Int.tmod_eq_emod hS (by decide)

/-- Past the guard, `formatDuration` joins the list of its three optional parts. -/
theorem formatDuration_eq_parts (ms : Int) (h : 1000 ≤ ms) :
    formatDuration (some ms) =
      String.intercalate " "
        ((if ms / 1000 / 3600 ≠ 0 then [toString (ms / 1000 / 3600) ++ "h"] else []) ++
         (if ms / 1000 / 60 % 60 ≠ 0 then [toString (ms / 1000 / 60 % 60) ++ "m"] else []) ++
         (if ms / 1000 % 60 ≠ 0 ∧ ms / 1000 / 3600 = 0
            then [toString (ms / 1000 % 60) ++ "s"] else [])) := by
  have hS : 0 ≤ ms / 1000 := by omega
  have hg : ¬ (ms = 0 ∨ ms < 1000) := by omega
  simp only [formatDuration, hg, if_false, tmod_div_sixty _ hS, tmod_sixty _ hS]
  split_ifs <;> simp

/-- C2: for every `ms` below 1000 (zero and every negative integer included) and
for an absent `ms`, `formatDuration ms` is exactly `less than 1s`. -/
theorem formatDuration_below_second :
    (∀ ms : Int, ms < 1000 → formatDuration (some ms) = "less than 1s") ∧
    formatDuration none = "less than 1s" := by
  refine ⟨fun ms h => ?_, rfl⟩
  simp [formatDuration, h]

theorem formatDuration_below_second_witness :
    (-5 : Int) < 1000 ∧ formatDuration (some (-5)) = "less than 1s" :=
  ⟨by decide, formatDuration_below_second.1 (-5) (by decide)⟩

/-! ## Joining strings -/

theorem intercalate_go_length (sep : String) (l : List String) (acc : String) :
    acc.length ≤ (String.intercalate.go acc sep l).length := by
  induction l generalizing acc with
  | nil => simp [String.intercalate.go]
  | cons a as ih =>
    simp only [String.intercalate.go]
    refine le_trans ?_ (ih _)
    simp only [String.length_append]
    omega

theorem intercalate_cons_ne_empty (sep a : String) (as : List String) (ha : 0 < a.length) :
    String.intercalate sep (a :: as) ≠ "" := by
  intro hcontra
  have h1 : a.length ≤ (String.intercalate sep (a :: as)).length := by
    simpa [String.intercalate] using intercalate_go_length sep as a
  rw [hcontra] at h1
  simp at h1
  omega

theorem unit_part_length (n : Int) (u : String) (hu : 0 < u.length) :
    0 < (toString n ++ u).length := by
  simp only [String.length_append]
  omega

/-- C9: for every integer `ms ≥ 1000` at least one of the hour, minute and second
components is included and `formatDuration ms` is not the empty string. -/
theorem formatDuration_nonempty (ms : Int) (h : 1000 ≤ ms) :
    (ms / 1000 / 3600 ≠ 0 ∨ Int.tmod (ms / 1000) 3600 / 60 ≠ 0 ∨
      (Int.tmod (ms / 1000) 60 ≠ 0 ∧ ms / 1000 / 3600 = 0)) ∧
    formatDuration (some ms) ≠ "" := by
  have hS : 0 ≤ ms / 1000 := by omega
  rw [tmod_div_sixty _ hS, tmod_sixty _ hS, formatDuration_eq_parts ms h]
  have hone : ms / 1000 / 3600 ≠ 0 ∨ ms / 1000 / 60 % 60 ≠ 0 ∨
      (ms / 1000 % 60 ≠ 0 ∧ ms / 1000 / 3600 = 0) := by omega
  refine ⟨hone, ?_⟩
  by_cases h1 : ms / 1000 / 3600 ≠ 0
  · simp only [h1, if_true, ne_eq, not_false_eq_true, List.singleton_append, List.cons_append]
    exact intercalate_cons_ne_empty _ _ _ (unit_part_length _ _ (by decide))
  · by_cases h2 : ms / 1000 / 60 % 60 ≠ 0
    · simp only [h1, h2, if_true, if_false, ne_eq, not_false_eq_true, List.nil_append,
        List.singleton_append, List.cons_append]
      exact intercalate_cons_ne_empty _ _ _ (unit_part_length _ _ (by decide))
    · have h3 : ms / 1000 % 60 ≠ 0 ∧ ms / 1000 / 3600 = 0 := by omega
      simp only [h1, h2, h3, if_true, if_false, ne_eq, not_false_eq_true, List.nil_append,
        and_self]
      exact intercalate_cons_ne_empty _ _ _ (unit_part_length _ _ (by decide))

theorem formatDuration_nonempty_witness :
    (1000 : Int) ≤ 3600000 ∧ formatDuration (some 3600000) ≠ "" :=
  ⟨by decide, (formatDuration_nonempty 3600000 (by decide)).2⟩

/-! ## The registry operations -/

theorem get_set_self (m : JoinTimes) (k : Snowflake) (v : Int) : (m.set k v).get k = some v := by
  induction m with
  | nil => simp [JoinTimes.set, JoinTimes.get]
  | cons a rest ih =>
    obtain ⟨k', v'⟩ := a
    by_cases hk : k' = k
    · simp [JoinTimes.set, JoinTimes.get, hk]
    · simp [JoinTimes.set, JoinTimes.get, hk, ih]

theorem get_set_other (m : JoinTimes) (k p : Snowflake) (v : Int) (hp : k ≠ p) :
    (m.set k v).get p = m.get p := by
  induction m with
  | nil => simp [JoinTimes.set, JoinTimes.get, hp]
  | cons a rest ih =>
    obtain ⟨k', v'⟩ := a
    by_cases hk : k' = k
    · subst hk
      simp [JoinTimes.set, JoinTimes.get, hp]
    · by_cases hkp : k' = p
      · subst hkp
        simp [JoinTimes.set, JoinTimes.get, hk]
      · simp [JoinTimes.set, JoinTimes.get, hk, hkp, ih]

theorem delete_cons (a : Snowflake × Int) (rest : JoinTimes) (k : Snowflake) :
    JoinTimes.delete (a :: rest) k =
      if a.1 = k then JoinTimes.delete rest k else a :: JoinTimes.delete rest k := by
  by_cases hk : a.1 = k <;> simp [JoinTimes.delete, hk]

theorem get_delete_self (m : JoinTimes) (k : Snowflake) : (m.delete k).get k = none := by
  induction m with
  | nil => simp [JoinTimes.delete, JoinTimes.get]
  | cons a rest ih =>
    obtain ⟨k', v'⟩ := a
    by_cases hk : k' = k
    · simp [delete_cons, hk, ih]
    · simp [delete_cons, JoinTimes.get, hk, ih]

theorem get_delete_other (m : JoinTimes) (k p : Snowflake) (hp : k ≠ p) :
    (m.delete k).get p = m.get p := by
  induction m with
  | nil => simp [JoinTimes.delete, JoinTimes.get]
  | cons a rest ih =>
    obtain ⟨k', v'⟩ := a
    by_cases hk : k' = k
    · subst hk
      simp [delete_cons, JoinTimes.get, hp, ih]
    · by_cases hkp : k' = p
      · subst hkp
        simp [delete_cons, JoinTimes.get, hk]
      · simp [delete_cons, JoinTimes.get, hk, hkp, ih]

theorem delete_delete (m : JoinTimes) (k : Snowflake) : (m.delete k).delete k = m.delete k := by
  simp [JoinTimes.delete, List.filter_filter]

theorem entries_nil (p : Snowflake) : JoinTimes.entries [] p = 0 := rfl

theorem entries_cons (a : Snowflake × Int) (rest : JoinTimes) (p : Snowflake) :
    JoinTimes.entries (a :: rest) p = (if a.1 = p then 1 else 0) + JoinTimes.entries rest p := by
  by_cases hk : a.1 = p <;> simp [JoinTimes.entries, hk]
  omega

theorem entries_set (m : JoinTimes) (k p : Snowflake) (v : Int) :
    (m.set k v).entries p = if k = p ∧ m.entries p = 0 then 1 else m.entries p := by
  induction m with
  | nil =>
    by_cases hk : k = p <;> simp [JoinTimes.set, entries_cons, entries_nil, hk]
  | cons a rest ih =>
    obtain ⟨k', v'⟩ := a
    by_cases hk : k' = k
    · subst hk
      by_cases hkp : k' = p <;> simp [JoinTimes.set, entries_cons, hkp]
    · by_cases hkp : k' = p
      · subst hkp
        have hk2 : ¬ k = k' := fun h => hk h.symm
        simp [JoinTimes.set, entries_cons, hk, hk2, ih]
      · simp only [JoinTimes.set, hk, if_false, entries_cons, hkp, ih, zero_add]

theorem entries_delete (m : JoinTimes) (k p : Snowflake) :
    (m.delete k).entries p = if k = p then 0 else m.entries p := by
  induction m with
  | nil => simp [JoinTimes.delete, entries_nil]
  | cons a rest ih =>
    obtain ⟨k', v'⟩ := a
    by_cases hk : k' = k
    · subst hk
      by_cases hkp : k' = p
      · subst hkp
        simpa [delete_cons] using ih
      · simp [delete_cons, entries_cons, hkp, ih]
    · by_cases hkp : k' = p
      · subst hkp
        have hk2 : ¬ k = k' := fun h => hk h.symm
        simp [delete_cons, entries_cons, hk, hk2, ih]
      · simp only [delete_cons, hk, if_false, entries_cons, hkp, ih, zero_add]

/-! ## One invocation of the handler, branch by branch -/

theorem handled_iff (e : Event) :
    handled e = true ↔
      ∃ m c, eventMember e = some m ∧ m.bot = false ∧ e.logChannel = some c ∧
        c.isTextBased = true := by
  unfold handled
  cases hm : eventMember e <;> cases hc : e.logChannel <;> simp

theorem isLeave_not_isJoin (e : Event) (h : isLeave e = true) : isJoin e = false := by
  unfold isLeave at h
  unfold isJoin
  cases ho : e.oldState.channelId <;> simp_all

theorem voiceStateUpdate_discarded (cfg : String) (jt : JoinTimes) (e : Event)
    (h : handled e = false) :
    (voiceStateUpdate cfg jt e).joinTimes = jt ∧ (voiceStateUpdate cfg jt e).sent = [] := by
  unfold handled at h
  unfold voiceStateUpdate
  cases hm : eventMember e with
  | none => simp [Run.sent]
  | some m =>
    cases hb : m.bot with
    | true => simp [Run.sent, hb]
    | false =>
      cases hc : e.logChannel with
      | none => simp [Run.sent, Run.awaitFetch, hb]
      | some c =>
        have ht : c.isTextBased = false := by simpa [hm, hb, hc] using h
        simp [Run.sent, Run.awaitFetch, ht, hb]

theorem voiceStateUpdate_join (cfg : String) (jt : JoinTimes) (e : Event) (m : Member)
    (h : handled e = true) (hm : eventMember e = some m) (hj : isJoin e = true) :
    voiceStateUpdate cfg jt e =
      { joinTimes := jt.set m.id e.now
        log := [Effect.awaitFetch, Effect.mapSet m.id e.now,
          Effect.send (payload cfg (joinMessage cfg m e.newState.channelId e.now))] } := by
  obtain ⟨m', c, hm', hb, hc, ht⟩ := (handled_iff e).1 h
  rw [hm] at hm'
  cases hm'
  simp [voiceStateUpdate, hm, hb, hc, ht, hj, Run.awaitFetch, Run.mapSet, Run.send]

theorem voiceStateUpdate_leave (cfg : String) (jt : JoinTimes) (e : Event) (m : Member)
    (h : handled e = true) (hm : eventMember e = some m) (hl : isLeave e = true) :
    voiceStateUpdate cfg jt e =
      { joinTimes := jt.delete m.id
        log := [Effect.awaitFetch, Effect.mapDelete m.id,
          Effect.send (payload cfg (leaveMessage cfg m e.now
            (formatDuration (some (durationMs (jt.get m.id) e.now)))))] } := by
  obtain ⟨m', c, hm', hb, hc, ht⟩ := (handled_iff e).1 h
  rw [hm] at hm'
  cases hm'
  have hj := isLeave_not_isJoin e hl
  simp [voiceStateUpdate, hm, hb, hc, ht, hj, hl, Run.awaitFetch, Run.mapDelete, Run.send]

theorem voiceStateUpdate_other (cfg : String) (jt : JoinTimes) (e : Event)
    (h : handled e = true) (hj : isJoin e = false) (hl : isLeave e = false) :
    voiceStateUpdate cfg jt e = { joinTimes := jt, log := [Effect.awaitFetch] } := by
  obtain ⟨m, c, hm, hb, hc, ht⟩ := (handled_iff e).1 h
  simp [voiceStateUpdate, hm, hb, hc, ht, hj, hl, Run.awaitFetch]

/-! ## Discarded and ignored events -/

/-- C6: whatever the channel transition, when the participant is a bot, or the
log channel is not resolved, or it is not text based, the handler leaves the
registry as it was and sends nothing. -/
theorem precondition_failure_is_noop (cfg : String) (jt : JoinTimes) (e : Event)
    (h : (∃ m, eventMember e = some m ∧ m.bot = true) ∨ e.logChannel = none ∨
      (∃ c, e.logChannel = some c ∧ c.isTextBased = false)) :
    (voiceStateUpdate cfg jt e).joinTimes = jt ∧ (voiceStateUpdate cfg jt e).sent = [] := by
  apply voiceStateUpdate_discarded
  unfold handled
  rcases h with ⟨m, hm, hb⟩ | hc | ⟨c, hc, ht⟩
  · simp [hm, hb]
  · simp [hc]
  · simp [hc, ht]

theorem precondition_failure_is_noop_witness :
    (voiceStateUpdate "true" [(7, 1000)]
        (mkEvent robo none (some 123) (some textChannel) 2000)).joinTimes = [(7, 1000)] ∧
    (voiceStateUpdate "true" [(7, 1000)]
        (mkEvent robo none (some 123) (some textChannel) 2000)).sent = [] :=
  precondition_failure_is_noop "true" [(7, 1000)]
    (mkEvent robo none (some 123) (some textChannel) 2000) (Or.inl ⟨robo, rfl, rfl⟩)

/-- C7: an event whose previous and next channel ids are both present or both
absent leaves the registry as it was and sends nothing; the handler changes the
registry or sends only when the previous id is absent and the next present
(join) or the previous present and the next absent (leave). -/
theorem move_and_none_are_ignored (cfg : String) (jt : JoinTimes) (e : Event) :
    (((e.oldState.channelId ≠ none ∧ e.newState.channelId ≠ none) ∨
        (e.oldState.channelId = none ∧ e.newState.channelId = none)) →
      (voiceStateUpdate cfg jt e).joinTimes = jt ∧ (voiceStateUpdate cfg jt e).sent = []) ∧
    (((voiceStateUpdate cfg jt e).joinTimes ≠ jt ∨ (voiceStateUpdate cfg jt e).sent ≠ []) →
      (e.oldState.channelId = none ∧ e.newState.channelId ≠ none) ∨
        (e.oldState.channelId ≠ none ∧ e.newState.channelId = none)) := by
  have key : ((e.oldState.channelId ≠ none ∧ e.newState.channelId ≠ none) ∨
        (e.oldState.channelId = none ∧ e.newState.channelId = none)) →
      (voiceStateUpdate cfg jt e).joinTimes = jt ∧ (voiceStateUpdate cfg jt e).sent = [] := by
    intro hch
    cases hh : handled e with
    | false => exact voiceStateUpdate_discarded cfg jt e hh
    | true =>
      have hj : isJoin e = false := by
        unfold isJoin
        rcases hch with ⟨ho, hn⟩ | ⟨ho, hn⟩
        · cases hoc : e.oldState.channelId <;> simp_all
        · simp [hn]
      have hl : isLeave e = false := by
        unfold isLeave
        rcases hch with ⟨ho, hn⟩ | ⟨ho, hn⟩
        · cases hnc : e.newState.channelId <;> simp_all
        · simp [ho]
      rw [voiceStateUpdate_other cfg jt e hh hj hl]
      simp [Run.sent]
  refine ⟨key, fun hchange => ?_⟩
  by_contra hnot
  have hch : (e.oldState.channelId ≠ none ∧ e.newState.channelId ≠ none) ∨
      (e.oldState.channelId = none ∧ e.newState.channelId = none) := by
    cases ho : e.oldState.channelId <;> cases hn : e.newState.channelId <;> simp_all
  obtain ⟨h1, h2⟩ := key hch
  rcases hchange with hc | hc
  · exact hc h1
  · exact hc h2

theorem move_and_none_are_ignored_witness :
    (voiceStateUpdate "true" [(7, 1000)]
        (mkEvent alice (some 5) (some 123) (some textChannel) 2000)).joinTimes = [(7, 1000)] ∧
    (voiceStateUpdate "true" [(7, 1000)]
        (mkEvent alice (some 5) (some 123) (some textChannel) 2000)).sent = [] :=
  (move_and_none_are_ignored "true" [(7, 1000)]
    (mkEvent alice (some 5) (some 123) (some textChannel) 2000)).1
    (Or.inl ⟨by decide, by decide⟩)

/-! ## The leave branch -/

theorem run_sent_leave (cfg : String) (jt : JoinTimes) (e : Event) (m : Member)
    (h : handled e = true) (hm : eventMember e = some m) (hl : isLeave e = true) :
    (voiceStateUpdate cfg jt e).sent =
      [payload cfg (leaveMessage cfg m e.now
        (formatDuration (some (durationMs (jt.get m.id) e.now))))] := by
  rw [voiceStateUpdate_leave cfg jt e m h hm hl]
  simp [Run.sent]

/-- C5: a handled leave of a participant without a registry entry computes the
duration 0, sends exactly one leave notification whose duration string is
`less than 1s`, and leaves the registry without an entry for the participant;
a second handled leave of the same participant right after a first one leaves
the registry as the first one left it and again reports the duration 0.  The
handler is a total function: no branch of it raises. -/
theorem leave_without_entry (cfg : String) (jt : JoinTimes) (e e2 : Event) (m : Member)
    (h : handled e = true) (hm : eventMember e = some m) (hl : isLeave e = true)
    (h2 : handled e2 = true) (hm2 : eventMember e2 = some m) (hl2 : isLeave e2 = true) :
    (jt.get m.id = none →
      durationMs (jt.get m.id) e.now = 0 ∧
      (voiceStateUpdate cfg jt e).sent =
        [payload cfg (leaveMessage cfg m e.now "less than 1s")] ∧
      (voiceStateUpdate cfg jt e).joinTimes.get m.id = none ∧
      (voiceStateUpdate cfg jt e).joinTimes.entries m.id = 0) ∧
    (voiceStateUpdate cfg (voiceStateUpdate cfg jt e).joinTimes e2).joinTimes =
        (voiceStateUpdate cfg jt e).joinTimes ∧
    durationMs ((voiceStateUpdate cfg jt e).joinTimes.get m.id) e2.now = 0 ∧
    (voiceStateUpdate cfg (voiceStateUpdate cfg jt e).joinTimes e2).sent =
        [payload cfg (leaveMessage cfg m e2.now "less than 1s")] := by
  have hfirst : (voiceStateUpdate cfg jt e).joinTimes = jt.delete m.id := by
    rw [voiceStateUpdate_leave cfg jt e m h hm hl]
  have hfmt : formatDuration (some 0) = "less than 1s" := by decide
  refine ⟨fun hnone => ?_, ?_, ?_, ?_⟩
  · refine ⟨by simp [hnone, durationMs], ?_, ?_, ?_⟩
    · rw [run_sent_leave cfg jt e m h hm hl, hnone]
      simp [durationMs, hfmt]
    · rw [hfirst]
      exact get_delete_self jt m.id
    · rw [hfirst, entries_delete]
      simp
  · rw [voiceStateUpdate_leave cfg _ e2 m h2 hm2 hl2, hfirst]
    exact delete_delete jt m.id
  · rw [hfirst, get_delete_self]
    rfl
  · rw [run_sent_leave cfg _ e2 m h2 hm2 hl2, hfirst, get_delete_self]
    simp [durationMs, hfmt]

theorem leave_without_entry_witness :
    (voiceStateUpdate "true" [] (mkEvent alice (some 123) none (some textChannel) 5000)).sent =
        [payload "true" (leaveMessage "true" alice 5000 "less than 1s")] ∧
    (voiceStateUpdate "true"
        (voiceStateUpdate "true" [(7, 1000)]
          (mkEvent alice (some 123) none (some textChannel) 5000)).joinTimes
        (mkEvent alice (some 123) none (some textChannel) 5000)).joinTimes =
      (voiceStateUpdate "true" [(7, 1000)]
          (mkEvent alice (some 123) none (some textChannel) 5000)).joinTimes :=
  ⟨((leave_without_entry "true" [] (mkEvent alice (some 123) none (some textChannel) 5000)
      (mkEvent alice (some 123) none (some textChannel) 5000) alice
      rfl rfl rfl rfl rfl rfl).1 rfl).2.1,
   (leave_without_entry "true" [(7, 1000)]
      (mkEvent alice (some 123) none (some textChannel) 5000)
      (mkEvent alice (some 123) none (some textChannel) 5000) alice
      rfl rfl rfl rfl rfl rfl).2.1⟩

/-- C3 (the code departs from it): a join handled at `Date.now() = 0` stores the
timestamp 0; at the leave handled at 125000 the registry holds an entry for the
participant, `t_leave - t_join` is 125000 and its rendering is `2m 5s`, yet the
notification sent carries the duration string `less than 1s`. -/
theorem leave_after_join_at_zero :
    (voiceStateUpdate "false" []
        (mkEvent alice none (some 123) (some textChannel) 0)).joinTimes = [(7, 0)] ∧
    JoinTimes.get [(7, 0)] alice.id = some 0 ∧
    formatDuration (some (125000 - 0)) = "2m 5s" ∧
    (voiceStateUpdate "false" [(7, 0)]
        (mkEvent alice (some 123) none (some textChannel) 125000)).sent =
      [payload "false" (leaveMessage "false" alice 125000 "less than 1s")] ∧
    (voiceStateUpdate "false" [(7, 0)]
        (mkEvent alice (some 123) none (some textChannel) 125000)).sent ≠
      [payload "false" (leaveMessage "false" alice 125000 "2m 5s")] := by
  refine ⟨by decide, by decide, by decide, by decide, by decide⟩

/-- Away from the stored value 0 the leave notification carries
`formatDuration (t_leave - t_join)`, and `formatDuration 0` without an entry. -/
theorem leave_duration_string (cfg : String) (jt : JoinTimes) (e : Event) (m : Member)
    (h : handled e = true) (hm : eventMember e = some m) (hl : isLeave e = true) :
    (∀ t, jt.get m.id = some t → t ≠ 0 →
      (voiceStateUpdate cfg jt e).sent =
        [payload cfg (leaveMessage cfg m e.now (formatDuration (some (e.now - t))))]) ∧
    (jt.get m.id = none →
      (voiceStateUpdate cfg jt e).sent =
        [payload cfg (leaveMessage cfg m e.now (formatDuration (some 0)))]) := by
  constructor
  · intro t ht h0
    rw [run_sent_leave cfg jt e m h hm hl, ht]
    simp [durationMs, h0]
  · intro hnone
    rw [run_sent_leave cfg jt e m h hm hl, hnone]
    simp [durationMs]

/-! ## The registry along a sequence of events -/

theorem processAll_concat (cfg : String) (jt : JoinTimes) (es : List Event) (e : Event) :
    processAll cfg jt (es ++ [e]) = (voiceStateUpdate cfg (processAll cfg jt es) e).joinTimes := by
  simp [processAll, List.foldl_append]

theorem lastIsJoin_concat (sel : Event → Bool) (es : List Event) (e : Event) :
    lastIsJoin sel (es ++ [e]) = if sel e = true then isJoin e else lastIsJoin sel es := by
  unfold lastIsJoin
  cases hs : sel e with
  | false => simp [List.filter_append, hs]
  | true => simp [List.filter_append, hs, List.getLast?_concat]

/-- What one invocation does to the registry as seen from participant `p`. -/
theorem step_view (cfg : String) (jt : JoinTimes) (e : Event) (p : Snowflake) :
    (((voiceStateUpdate cfg jt e).joinTimes.get p).isSome =
        if (handled e && classified p e) = true then isJoin e else (jt.get p).isSome) ∧
    (jt.entries p ≤ 1 → (voiceStateUpdate cfg jt e).joinTimes.entries p ≤ 1) := by
  cases hh : handled e with
  | false =>
    have h1 := (voiceStateUpdate_discarded cfg jt e hh).1
    simp [h1]
  | true =>
    obtain ⟨m, c, hm, hb, hc, ht⟩ := (handled_iff e).1 hh
    cases hj : isJoin e with
    | true =>
      rw [voiceStateUpdate_join cfg jt e m hh hm hj]
      by_cases hp : m.id = p
      · subst hp
        refine ⟨by simp [classified, hm, hj, get_set_self], fun hle => ?_⟩
        simp only [entries_set]
        split_ifs <;> omega
      · refine ⟨by simp [classified, hm, hp, get_set_other _ _ _ _ hp], fun hle => ?_⟩
        simp only [entries_set]
        split_ifs <;> omega
    | false =>
      cases hl : isLeave e with
      | true =>
        rw [voiceStateUpdate_leave cfg jt e m hh hm hl]
        by_cases hp : m.id = p
        · subst hp
          refine ⟨by simp [classified, hm, hj, hl, get_delete_self], fun hle => ?_⟩
          simp [entries_delete]
        · refine ⟨by simp [classified, hm, hp, get_delete_other _ _ _ hp], fun hle => ?_⟩
          simp only [entries_delete, hp, if_false]
          exact hle
      | false =>
        rw [voiceStateUpdate_other cfg jt e hh hj hl]
        simp [classified, hj, hl]

/-- C4 as stated fails: a join of a human participant handled while the log
channel cannot be resolved, and a join of a bot, are both classified join, are the
last classified event of their participant, and leave no registry entry. -/
theorem registry_iff_last_classified_fails :
    ¬ (((processAll "true" []
          [mkEvent alice none (some 123) none 1000]).get alice.id).isSome = true ↔
        lastIsJoin (classified alice.id) [mkEvent alice none (some 123) none 1000] = true) ∧
    ¬ (((processAll "true" []
          [mkEvent robo none (some 123) (some textChannel) 1000]).get robo.id).isSome = true ↔
        lastIsJoin (classified robo.id)
          [mkEvent robo none (some 123) (some textChannel) 1000] = true) := by
  constructor <;> decide

/-- C4, amended: from the empty registry, after any finite sequence of events
the registry has an entry for `p` iff some event of `p` that passed the
precondition checks was classified join or leave and the last such event was a
join; and the registry holds at most one entry for `p`. -/
theorem registry_iff_last_handled (cfg : String) (es : List Event) (p : Snowflake) :
    (((processAll cfg [] es).get p).isSome = true ↔
      lastIsJoin (fun e => handled e && classified p e) es = true) ∧
    (processAll cfg [] es).entries p ≤ 1 := by
  induction es using List.reverseRecOn with
  | nil => simp [processAll, lastIsJoin, JoinTimes.get, JoinTimes.entries]
  | append_singleton es e ih =>
    obtain ⟨ih1, ih2⟩ := ih
    obtain ⟨hview, hent⟩ := step_view cfg (processAll cfg [] es) e p
    rw [processAll_concat, lastIsJoin_concat]
    refine ⟨?_, hent ih2⟩
    rw [hview]
    by_cases hsel : (handled e && classified p e) = true
    · simp [hsel]
    · simp only [hsel, if_false]
      exact ih1

/-! ## The join notification -/

/-- C8 as stated fails: in plain-text mode the join notification of a join at
`t = 1000` does not carry the relative-time token. -/
theorem plain_join_lacks_relative_token :
    ∃ p, (voiceStateUpdate "false" []
        (mkEvent alice none (some 123) (some textChannel) 1000)).sent = [p] ∧
      ¬ p.carries ("<t:" ++ toString ((1000 : Int) / 1000) ++ ":R>") :=
  ⟨payload "false" (joinMessage "false" alice (some 123) 1000), by decide, by decide⟩

theorem run_sent_join (cfg : String) (jt : JoinTimes) (e : Event) (m : Member)
    (h : handled e = true) (hm : eventMember e = some m) (hj : isJoin e = true) :
    (voiceStateUpdate cfg jt e).sent =
      [payload cfg (joinMessage cfg m e.newState.channelId e.now)] := by
  rw [voiceStateUpdate_join cfg jt e m h hm hj]
  simp [Run.sent]

theorem rich_join_texts (m : Member) (c : Snowflake) (t : Int) :
    (payload "true" (joinMessage "true" m (some c) t)).texts =
      [m.displayName ++ " joined a voice channel",
       "📥 **Channel:** " ++ ("<#" ++ toString c ++ ">") ++
         ("\n\n⏰ Joined: " ++ ("<t:" ++ toString (t / 1000) ++ ":t>") ++ " (" ++
           ("<t:" ++ toString (t / 1000) ++ ":R>") ++ ")")] := by
  have e1 : ("📥 **Channel:** <#" : String) = "📥 **Channel:** " ++ "<#" := by decide
  have e2 : (">\n\n" : String) = ">" ++ "\n\n" := by decide
  have e3 : ("⏰ Joined: <t:" : String) = "⏰ Joined: " ++ "<t:" := by decide
  have e4 : ("\n\n⏰ Joined: " : String) = "\n\n" ++ "⏰ Joined: " := by decide
  have e5 : ("(<t:" : String) = "(" ++ "<t:" := by decide
  have e6 : (":t> " : String) = ":t>" ++ " " := by decide
  have e7 : (":R>)" : String) = ":R>" ++ ")" := by decide
  have e8 : (" (" : String) = " " ++ "(" := by decide
  simp only [payload, joinMessage, Payload.texts, Message.texts, showChannelId, if_true,
    List.foldr, List.append_nil, ne_eq, not_true_eq_false, if_false, List.cons.injEq,
    true_and, and_true]
  rw [e1, e2, e3, e4, e5, e6, e7, e8]
  simp only [String.append_assoc]

theorem plain_join_texts (cfg : String) (hcfg : cfg ≠ "true") (m : Member) (c : Snowflake)
    (t : Int) :
    (payload cfg (joinMessage cfg m (some c) t)).texts =
      ["✅ " ++ m.displayName ++ " joined " ++ ("<#" ++ toString c ++ ">") ++ " at " ++
        ("<t:" ++ toString (t / 1000) ++ ":t>")] := by
  have e1 : (" joined <#" : String) = " joined " ++ "<#" := by decide
  have e2 : ("> at <t:" : String) = ">" ++ (" at " ++ "<t:") := by decide
  simp only [payload, joinMessage, Payload.texts, Message.texts, showChannelId, hcfg, if_false,
    List.nil_append, ne_eq, not_false_eq_true, if_true, List.cons.injEq, and_true]
  rw [e1, e2]
  simp only [String.append_assoc]

theorem infix_self (t : String) : t.data <:+: t.data := List.infix_refl _

theorem infix_append_left (t x y : String) (h : t.data <:+: x.data) :
    t.data <:+: (x ++ y).data := by
  obtain ⟨a, b, hab⟩ := h
  exact ⟨a, b ++ y.data, by simp [String.data_append, ← hab]⟩

theorem infix_append_right (t x y : String) (h : t.data <:+: y.data) :
    t.data <:+: (x ++ y).data := by
  obtain ⟨a, b, hab⟩ := h
  exact ⟨x.data ++ a, b, by simp [String.data_append, ← hab]⟩

/-- C8, amended: the notification of a handled join at `t_join` into channel `c`
by a participant named `n` carries `n`, the channel reference `<#c>` and the
absolute time token `<t:floor(t_join/1000):t>` in both rendering modes, and the
relative-time token `<t:floor(t_join/1000):R>` in the rich mode. -/
theorem join_notification_carries (cfg : String) (jt : JoinTimes) (e : Event) (m : Member)
    (c : Snowflake) (h : handled e = true) (hm : eventMember e = some m)
    (hj : isJoin e = true) (hc : e.newState.channelId = some c) :
    ∃ p, (voiceStateUpdate cfg jt e).sent = [p] ∧
      p.carries m.displayName ∧
      p.carries ("<#" ++ toString c ++ ">") ∧
      p.carries ("<t:" ++ toString (e.now / 1000) ++ ":t>") ∧
      (cfg = "true" → p.carries ("<t:" ++ toString (e.now / 1000) ++ ":R>")) := by
  refine ⟨_, run_sent_join cfg jt e m h hm hj, ?_⟩
  rw [hc]
  by_cases hcfg : cfg = "true"
  · subst hcfg
    simp only [Payload.carries, rich_join_texts, List.mem_cons, List.mem_singleton,
      exists_eq_or_imp, exists_eq_left, List.not_mem_nil, false_or, or_false, forall_true_left]
    refine ⟨Or.inl ?_, Or.inr ?_, Or.inr ?_, Or.inr ?_⟩
    · exact infix_append_left _ _ _ (infix_self _)
    · exact infix_append_left _ _ _ (infix_append_right _ _ _ (infix_self _))
    · exact infix_append_right _ _ _ (infix_append_left _ _ _ (infix_append_left _ _ _
        (infix_append_left _ _ _ (infix_append_right _ _ _ (infix_self _)))))
    · exact infix_append_right _ _ _ (infix_append_left _ _ _
        (infix_append_right _ _ _ (infix_self _)))
  · simp only [Payload.carries, plain_join_texts cfg hcfg, List.mem_singleton, exists_eq_left,
      hcfg, false_implies, and_true]
    refine ⟨?_, ?_, ?_⟩
    · exact infix_append_left _ _ _ (infix_append_left _ _ _ (infix_append_left _ _ _
        (infix_append_left _ _ _ (infix_append_right _ _ _ (infix_self _)))))
    · exact infix_append_left _ _ _ (infix_append_left _ _ _
        (infix_append_right _ _ _ (infix_self _)))
    · exact infix_append_right _ _ _ (infix_self _)

theorem join_notification_carries_witness :
    ∃ p, (voiceStateUpdate "true" []
        (mkEvent alice none (some 123) (some textChannel) 1000)).sent = [p] ∧
      p.carries alice.displayName ∧
      p.carries ("<#" ++ toString (123 : Snowflake) ++ ">") ∧
      p.carries ("<t:" ++ toString ((1000 : Int) / 1000) ++ ":t>") ∧
      (("true" : String) = "true" → p.carries ("<t:" ++ toString ((1000 : Int) / 1000) ++ ":R>")) :=
  join_notification_carries "true" [] (mkEvent alice none (some 123) (some textChannel) 1000)
    alice 123 rfl rfl rfl rfl

/-! ## Order of the effects within one invocation -/

/-- C10 as stated fails: on a handled join and on a handled leave the handler
suspends in the log-channel resolution before it mutates the registry. -/
theorem mutation_follows_await :
    mutatesBeforeSuspending (voiceStateUpdate "true" []
        (mkEvent alice none (some 123) (some textChannel) 1000)).log = false ∧
    mutatesBeforeSuspending (voiceStateUpdate "true" [(7, 1000)]
        (mkEvent alice (some 123) none (some textChannel) 126000)).log = false ∧
    (voiceStateUpdate "true" []
        (mkEvent alice none (some 123) (some textChannel) 1000)).log =
      [Effect.awaitFetch, Effect.mapSet 7 1000,
        Effect.send (payload "true" (joinMessage "true" alice (some 123) 1000))] := by
  refine ⟨by decide, by decide, by decide⟩

/-- C10, amended: on a handled join or leave event the handler performs exactly
three effects, in this order: the await of the log-channel resolution, the
registry mutation (`set` on a join, `delete` on a leave), the send.  The await is
the only suspension point, and none separates the mutation from the send. -/
theorem await_then_mutate_then_send (cfg : String) (jt : JoinTimes) (e : Event) (m : Member)
    (h : handled e = true) (hm : eventMember e = some m)
    (hjl : isJoin e = true ∨ isLeave e = true) :
    ∃ mu p, (voiceStateUpdate cfg jt e).log = [Effect.awaitFetch, mu, Effect.send p] ∧
      (isJoin e = true → mu = Effect.mapSet m.id e.now) ∧
      (isLeave e = true → mu = Effect.mapDelete m.id) ∧
      ((voiceStateUpdate cfg jt e).log.filter Effect.isAwait).length = 1 := by
  rcases hjl with hj | hl
  · have hl : isLeave e = false := by
      unfold isJoin at hj
      unfold isLeave
      cases ho : e.oldState.channelId <;> simp_all
    rw [voiceStateUpdate_join cfg jt e m h hm hj]
    exact ⟨_, _, rfl, fun _ => rfl, fun hl2 => by simp [hl] at hl2, by simp [Effect.isAwait]⟩
  · have hj := isLeave_not_isJoin e hl
    rw [voiceStateUpdate_leave cfg jt e m h hm hl]
    exact ⟨_, _, rfl, fun hj2 => by simp [hj] at hj2, fun _ => rfl, by simp [Effect.isAwait]⟩

theorem await_then_mutate_then_send_witness :
    ∃ mu p, (voiceStateUpdate "true" [(7, 1000)]
        (mkEvent alice (some 123) none (some textChannel) 126000)).log =
          [Effect.awaitFetch, mu, Effect.send p] ∧
      (isJoin (mkEvent alice (some 123) none (some textChannel) 126000) = true →
        mu = Effect.mapSet alice.id 126000) ∧
      (isLeave (mkEvent alice (some 123) none (some textChannel) 126000) = true →
        mu = Effect.mapDelete alice.id) ∧
      ((voiceStateUpdate "true" [(7, 1000)]
        (mkEvent alice (some 123) none (some textChannel) 126000)).log.filter
          Effect.isAwait).length = 1 :=
  await_then_mutate_then_send "true" [(7, 1000)]
    (mkEvent alice (some 123) none (some textChannel) 126000) alice rfl rfl (Or.inr rfl)

end VoiceCallTracker
